import Mathlib

/-!
Verification of the offline state-maintenance CLI drivers of the `ftc`
repository (`cmd/geth/snapshot.go` and `cmd/geth/dbcmd.go`) against the
natural-language specification.

The drivers orchestrate external collaborators (key/value store, trie
iterators, snapshot tree, pruner).  Each collaborator is embedded as a
function-valued field of an environment structure; the drivers themselves
are translated statement by statement, preserving the order of external
calls and every early-return path.  Machine integers that matter are
modelled as `Nat` (hashes are 256-bit values, byte strings are `List Nat`).
-/

namespace Ftc

/-- A 32-byte hash, as a natural number.  `common.Hash{}` (the all-zero
hash used by the Go code as a sentinel) is `0`. -/
abbrev Hash := Nat

/-- A byte string (`[]byte` in Go). -/
abbrev Bytes := List Nat

/-- `types.EmptyRootHash`: keccak256(rlp("")), the root of the empty trie. -/
def emptyRootHash : Hash :=
  0x56e81f171bcc55a6ff8345e692c0f86e5b48e01b996cadc001622fb5e363b421

/-- `types.EmptyCodeHash.Bytes()`: keccak256 of the empty byte string,
as the 32-byte slice the Go code compares `acc.CodeHash` against with
`bytes.Equal`. -/
def emptyCodeHashBytes : Bytes :=
  [0xc5, 0xd2, 0x46, 0x01, 0x86, 0xf7, 0x23, 0x3c,
   0x92, 0x7e, 0x7d, 0xb2, 0xdc, 0xc7, 0x03, 0xc0,
   0xe5, 0x00, 0xb6, 0x53, 0xca, 0x82, 0x27, 0x3b,
   0x7b, 0xfa, 0xd8, 0x04, 0x5d, 0x85, 0xa4, 0x70]

/-- `types.StateAccount` as decoded by `rlp.DecodeBytes` in the drivers.
Only the fields the drivers inspect are modelled. -/
structure StateAccount where
  nonce : Nat
  balance : Nat
  root : Hash
  codeHash : Bytes
deriving DecidableEq, Repr

/-- The head block as returned by `rawdb.ReadHeadBlock`; the drivers use
only its state root and number. -/
structure Block where
  root : Hash
  number : Nat
deriving DecidableEq, Repr

/-! ## prune-state (`pruneState`, snapshot.go lines 198-236) -/

/-- The on-disk state scheme reported by `rawdb.ReadStateScheme`. -/
inductive Scheme where
  | hash
  | path
deriving DecidableEq, Repr

/-- Errors surfaced by the `prune-state` command.  `log.Crit` terminates
the process with a non-zero exit; it is modelled as the `schemeMismatch`
error outcome. -/
inductive PruneErr where
  | schemeMismatch
  | openPruner (msg : String)
  | tooManyArgs
  | parseRoot (s : String)
  | pruneFailed (msg : String)
deriving DecidableEq, Repr

/-- External collaborators of `pruneState`, over an abstract node-store
state `σ`.  `prune` is `pruner.Prune`, the only call that may mutate the
node store. -/
structure PruneEnv (σ : Type) where
  stateScheme : Scheme
  newPruner : Except String Unit
  args : List String
  unmarshalText : String → Option Hash
  prune : Hash → σ → Except String Unit × σ

/-- `parseRoot` (snapshot.go lines 604-610): delegates to
`common.Hash.UnmarshalText` (modelled abstractly) and fails on malformed
input. -/
def parseRoot (unmarshalText : String → Option Hash) (input : String) :
    Option Hash :=
  unmarshalText input

/-- `pruneState` (snapshot.go lines 198-236).  The scheme check at lines
210-212 runs before `pruner.NewPruner` and before any store access; the
state `σ` is threaded only through `pruner.Prune`. -/
def pruneState {σ : Type} (env : PruneEnv σ) (st : σ) :
    Except PruneErr Unit × σ :=
  if env.stateScheme ≠ Scheme.hash then
    (Except.error PruneErr.schemeMismatch, st)
  else
    match env.newPruner with
    | Except.error msg => (Except.error (PruneErr.openPruner msg), st)
    | Except.ok _ =>
      if env.args.length > 1 then (Except.error PruneErr.tooManyArgs, st)
      else
        match env.args with
        | [a] =>
          match parseRoot env.unmarshalText a with
          | none => (Except.error (PruneErr.parseRoot a), st)
          | some root =>
            match env.prune root st with
            | (Except.error msg, st₂) =>
              (Except.error (PruneErr.pruneFailed msg), st₂)
            | (Except.ok _, st₂) => (Except.ok (), st₂)
        | _ =>
          match env.prune 0 st with
          | (Except.error msg, st₂) =>
            (Except.error (PruneErr.pruneFailed msg), st₂)
          | (Except.ok _, st₂) => (Except.ok (), st₂)

/-! ## hbss-to-pbss (`hbss2pbss`, dbcmd.go lines 1227-1331) -/

/-- The observable state of the store and historical log during the
scheme migration:

* `persistentStateID` — `rawdb.ReadPersistentStateID(db.GetStateStore())`;
* `freezerOffset`     — the state freezer table offset held by the
  external historical log, set by `rawdb.ResetStateFreezerTableOffset`;
* `hashNodesDeleted`  — whether `rawdb.PruneHashTrieNodeInDataBase` has
  removed the old hash-scheme trie nodes;
* `converted`         — whether the trie conversion walk (`h2p.Run`) ran. -/
structure MigState where
  persistentStateID : Nat
  freezerOffset : Nat
  hashNodesDeleted : Bool
  converted : Bool
deriving DecidableEq, Repr

/-- Errors surfaced by `hbss2pbss`. -/
inductive MigErr where
  | tooManyArgs
  | parseJobnum (s : String)
  | readHeaderNumber
  | emptyCanonicalHash
  | emptyRootHash
  | newTrie (msg : String)
  | newH2P (msg : String)
  | resetOffset (msg : String)
  | pruneHashNodes (msg : String)
deriving DecidableEq, Repr

/-- `math.MaxUint64`. -/
def maxUint64 : Nat := 2 ^ 64 - 1

/-- External collaborators of `hbss2pbss`.  `runStateID` gives the
persistent state ID left in the state store by the conversion walk
`h2p.Run` (an external bulk rewrite; see `runConversion`). -/
structure MigEnv where
  args : List String
  parseUint : String → Option Nat
  force : Bool
  headHeaderNumber : Option Nat
  canonicalHash : Nat → Hash
  headerRoot : Nat → Hash
  newTrie : Hash → Except String Unit
  newH2P : Hash → Nat → Nat → Except String Unit
  runStateID : MigState → Nat
  resetOffsetErr : Nat → Option String
  pruneHashNodesErr : Option String

/-- Modelled from the spec: `trie.NewHbss2Pbss(...).Run()` is not under
`src/`.  Per §4.7 the Migrator walks the source-scheme trie and
"re-write[s] every visited node under the destination scheme's key format
into the Node Store, tracking a monotonically increasing Persistent State
ID checkpoint as it completes"; deleting the old-scheme nodes and
reconciling the historical log happen afterwards, in the driver.  So the
walk updates the persistent state ID (abstractly, via `runStateID`) and
touches neither the freezer offset nor the old hash-scheme nodes. -/
def runConversion (env : MigEnv) (st : MigState) : MigState :=
  { st with persistentStateID := env.runStateID st, converted := true }

/-- The conversion phase of `hbss2pbss` (dbcmd.go lines 1228-1304):
argument parsing, then — only when the stored persistent state ID is zero
or `--force` is set — the header lookups and the trie conversion walk. -/
def convPhase (env : MigEnv) (st : MigState) : Except MigErr MigState :=
  if env.args.length > 1 then Except.error MigErr.tooManyArgs
  else
    match (match env.args with
           | [a] => (env.parseUint a).map (fun n => n)
           | _ => some 1000 : Option Nat) with
    | none =>
      Except.error (MigErr.parseJobnum (env.args.headD ""))
    | some jobnum =>
      if st.persistentStateID = 0 || env.force then
        match env.headHeaderNumber with
        | none => Except.error MigErr.readHeaderNumber
        | some blockNumber =>
          match (if blockNumber ≠ maxUint64 then
                   if env.canonicalHash blockNumber = 0 then
                     Except.error MigErr.emptyCanonicalHash
                   else Except.ok (env.headerRoot blockNumber)
                 else Except.ok 0 : Except MigErr Hash) with
          | Except.error e => Except.error e
          | Except.ok trieRootHash =>
            if trieRootHash = 0 then Except.error MigErr.emptyRootHash
            else
              match env.newTrie trieRootHash with
              | Except.error msg => Except.error (MigErr.newTrie msg)
              | Except.ok _ =>
                match env.newH2P trieRootHash blockNumber jobnum with
                | Except.error msg => Except.error (MigErr.newH2P msg)
                | Except.ok _ => Except.ok (runConversion env st)
      else
        Except.ok st

/-- `hbss2pbss` (dbcmd.go lines 1227-1331).  After the conversion phase
the persistent state ID is re-read; a zero value is only logged
(`log.Error`, line 1309) — the command still resets the freezer table
offset to it and still prunes the hash-scheme trie nodes. -/
def hbss2pbss (env : MigEnv) (st : MigState) :
    Except MigErr Unit × MigState :=
  match convPhase env st with
  | Except.error e => (Except.error e, st)
  | Except.ok st₁ =>
    let lastStateID := st₁.persistentStateID
    match env.resetOffsetErr lastStateID with
    | some msg => (Except.error (MigErr.resetOffset msg), st₁)
    | none =>
      let st₂ := { st₁ with freezerOffset := lastStateID }
      match env.pruneHashNodesErr with
      | some msg => (Except.error (MigErr.pruneHashNodes msg), st₂)
      | none => (Except.ok (), { st₂ with hashNodesDeleted := true })

/-! ## verify-state (`verifyState`, snapshot.go lines 281-324) -/

/-- Errors surfaced by the `verify-state` command. -/
inductive VerifyErr where
  | noHeadBlock
  | openSnapshotTree (msg : String)
  | tooManyArgs
  | parseRoot (s : String)
  | verifyFailed (root : Hash) (msg : String)
  | danglingStorage (msg : String)
deriving DecidableEq, Repr

/-- External collaborators of `verifyState`.  `snapshotNew` is
`snapshot.New` (opened at the head block's root), `verify` is
`snaptree.Verify`, `checkDangling` is `snapshot.CheckDanglingStorage`
(`none` means success). -/
structure VerifyEnv where
  headBlock : Option Block
  snapshotNew : Hash → Except String Unit
  args : List String
  unmarshalText : String → Option Hash
  verify : Hash → Option String
  checkDangling : Option String

/-- The tail of `verifyState` once the root is resolved (snapshot.go
lines 318-323): run `snaptree.Verify(root)` first, return its error on
failure, otherwise return `snapshot.CheckDanglingStorage(chaindb)`. -/
def verifyAt (env : VerifyEnv) (root : Hash) : Except VerifyErr Unit :=
  match env.verify root with
  | some msg => Except.error (VerifyErr.verifyFailed root msg)
  | none =>
    match env.checkDangling with
    | some msg => Except.error (VerifyErr.danglingStorage msg)
    | none => Except.ok ()

/-- `verifyState` (snapshot.go lines 281-324): head-block check, snapshot
tree opened at the head root, argument-count check, root resolution, then
`verifyAt`. -/
def verifyState (env : VerifyEnv) : Except VerifyErr Unit :=
  match env.headBlock with
  | none => Except.error VerifyErr.noHeadBlock
  | some headBlock =>
    match env.snapshotNew headBlock.root with
    | Except.error msg => Except.error (VerifyErr.openSnapshotTree msg)
    | Except.ok _ =>
      if env.args.length > 1 then Except.error VerifyErr.tooManyArgs
      else
        match env.args with
        | [a] =>
          match parseRoot env.unmarshalText a with
          | none => Except.error (VerifyErr.parseRoot a)
          | some root => verifyAt env root
        | _ => verifyAt env headBlock.root

/-! ## insecure-prune-all (`pruneAllState`, snapshot.go lines 238-279) -/

/-- The genesis specification, reduced to what the full prune consumes:
the set of trie node keys of the genesis state (re-derived by walking the
genesis trie). -/
structure Genesis where
  trieNodes : List Hash
deriving DecidableEq, Repr

/-- The trie-related keys of the node store swept by the full prune. -/
structure TrieStore where
  keys : List Hash
deriving DecidableEq, Repr

/-- Modelled from the spec: `pruner.NewAllPruner` / `pruner.PruneAll` are
not under `src/`.  Per §4.4, the full prune "deletes every trie-related
key in the node store except the genesis state's nodes, re-derived by
walking the genesis trie only". -/
def pruneAll (g : Genesis) (st : TrieStore) : TrieStore :=
  { keys := st.keys.filter (fun k => g.trieNodes.contains k) }

/-- Outcomes of `pruneAllState`.  `utils.Fatalf` prints and exits
non-zero; it is modelled as the `fatal` outcome. -/
inductive PruneAllErr where
  | fatal (msg : String)
  | openAllPruner (msg : String)
deriving DecidableEq, Repr

/-- External collaborators of `pruneAllState`.  `openFile` is `os.Open`,
`decodeGenesisJSON` is the `json.NewDecoder(file).Decode(g)` parse of the
file at the path, `loadConfigGenesis` is the `loadConfig` fallback
yielding `cfg.Eth.Genesis`. -/
structure PruneAllEnv where
  args : List String
  openFile : String → Except String Unit
  decodeGenesisJSON : String → Option Genesis
  loadConfigGenesis : String → Except String Genesis
  newAllPruner : Except String Unit

/-- `ctx.Args().First()`: the first CLI argument, or the empty string
when there is none. -/
def firstArg (args : List String) : String :=
  match args with
  | [] => ""
  | a :: _ => a

/-- Result of `pruneAllState`: the command outcome, whether
`utils.MakeChainDatabase` was reached (it is called only after the
genesis file is resolved), and the final node store. -/
structure PruneAllOut where
  result : Except PruneAllErr Unit
  dbOpened : Bool
  store : TrieStore
deriving Repr

/-- `pruneAllState` (snapshot.go lines 238-279): the empty-path check and
the genesis loading (direct JSON, falling back to a config file) all run
before the chain database is opened; the prune itself keeps exactly the
genesis-reachable keys. -/
def pruneAllState (env : PruneAllEnv) (st : TrieStore) : PruneAllOut :=
  let genesisPath := firstArg env.args
  if genesisPath = "" then
    ⟨Except.error (PruneAllErr.fatal "Must supply path to genesis JSON file"),
     false, st⟩
  else
    match env.openFile genesisPath with
    | Except.error msg =>
      ⟨Except.error (PruneAllErr.fatal msg), false, st⟩
    | Except.ok _ =>
      match (match env.decodeGenesisJSON genesisPath with
             | some g => Except.ok g
             | none => env.loadConfigGenesis genesisPath : Except String Genesis) with
      | Except.error msg => ⟨Except.error (PruneAllErr.fatal msg), false, st⟩
      | Except.ok g =>
        match env.newAllPruner with
        | Except.error msg =>
          ⟨Except.error (PruneAllErr.openAllPruner msg), true, st⟩
        | Except.ok _ => ⟨Except.ok (), true, pruneAll g st⟩

/-! ## traverse-state (`traverseState`, snapshot.go lines 340-443) -/

/-- One leaf yielded by `trie.NewIterator` over the account trie's node
iterator: the leaf key (`accIter.Key`, an account hash) and the leaf
value (`accIter.Value`, the RLP-encoded account). -/
structure LeafView where
  key : Hash
  value : Bytes
deriving DecidableEq, Repr

/-- Outcome of opening and draining one storage trie during
`traverseState`: opening the trie may fail, opening its iterator may
fail, or the walk yields `slots` leaves and then reports an optional
iterator error (`storageIter.Err`). -/
inductive StorageWalk where
  | trieFail (msg : String)
  | iterFail (msg : String)
  | walk (slots : Nat) (err : Option String)
deriving DecidableEq, Repr

/-- Errors surfaced by the `traverse-state` command. -/
inductive StErr where
  | noHeadBlock
  | tooManyArgs
  | parseRoot (s : String)
  | openTrie (root : Hash) (msg : String)
  | openIter (root : Hash) (msg : String)
  | invalidAccount
  | openStorageTrie (root : Hash) (msg : String)
  | openStorageIter (root : Hash) (msg : String)
  | storageWalkErr (root : Hash) (msg : String)
  | missingCode (codeHash : Bytes)
  | accIterErr (root : Hash) (msg : String)
deriving DecidableEq, Repr

/-- Counters reported by `traverseState` on success. -/
structure StStats where
  accounts : Nat
  slots : Nat
  codes : Nat
deriving DecidableEq, Repr

/-- External collaborators of `traverseState`.  `accIter root` is the
composite of `trie.NewStateTrie` + `NodeIterator` + the leaf iteration:
the yielded leaves and the terminal `accIter.Err`.  `storageWalk` is
keyed by `(stateRoot, accountHash, storageRoot)` as in
`trie.StorageTrieID`. -/
structure StateEnv where
  headBlock : Option Block
  args : List String
  unmarshalText : String → Option Hash
  newStateTrie : Hash → Except String Unit
  accIter : Hash → Except String (List LeafView × Option String)
  decodeAccount : Bytes → Option StateAccount
  storageWalk : Hash → Hash → Hash → StorageWalk
  hasCode : Bytes → Bool

/-- The per-leaf loop of `traverseState` (snapshot.go lines 392-436):
decode the account, walk its storage trie when the storage root is not
the empty-trie root, and require the code blob when the code hash is not
the empty-code hash. -/
def stLoop (env : StateEnv) (root : Hash) :
    List LeafView → StStats → Except StErr StStats
  | [], s => Except.ok s
  | lv :: rest, s =>
    let s := { s with accounts := s.accounts + 1 }
    match env.decodeAccount lv.value with
    | none => Except.error StErr.invalidAccount
    | some acc =>
      match (if acc.root ≠ emptyRootHash then
               match env.storageWalk root lv.key acc.root with
               | StorageWalk.trieFail msg =>
                 Except.error (StErr.openStorageTrie acc.root msg)
               | StorageWalk.iterFail msg =>
                 Except.error (StErr.openStorageIter acc.root msg)
               | StorageWalk.walk n terr =>
                 match terr with
                 | some msg =>
                   Except.error (StErr.storageWalkErr acc.root msg)
                 | none => Except.ok (s.slots + n)
             else Except.ok s.slots : Except StErr Nat) with
      | Except.error e => Except.error e
      | Except.ok slots =>
        if acc.codeHash ≠ emptyCodeHashBytes then
          if env.hasCode acc.codeHash then
            stLoop env root rest
              { accounts := s.accounts, slots := slots, codes := s.codes + 1 }
          else Except.error (StErr.missingCode acc.codeHash)
        else
          stLoop env root rest
            { accounts := s.accounts, slots := slots, codes := s.codes }

/-- The tail of `traverseState` once the root is resolved (snapshot.go
lines 374-442): open the state trie and its iterator, run the leaf loop,
then check the terminal iterator error. -/
def traverseStateAt (env : StateEnv) (root : Hash) : Except StErr StStats :=
  match env.newStateTrie root with
  | Except.error msg => Except.error (StErr.openTrie root msg)
  | Except.ok _ =>
    match env.accIter root with
    | Except.error msg => Except.error (StErr.openIter root msg)
    | Except.ok (leaves, terr) =>
      match stLoop env root leaves ⟨0, 0, 0⟩ with
      | Except.error e => Except.error e
      | Except.ok s =>
        match terr with
        | some msg => Except.error (StErr.accIterErr root msg)
        | none => Except.ok s

/-- `traverseState` (snapshot.go lines 340-443): head-block check,
argument-count check, root resolution (head root by default), then
`traverseStateAt`. -/
def traverseState (env : StateEnv) : Except StErr StStats :=
  match env.headBlock with
  | none => Except.error StErr.noHeadBlock
  | some headBlock =>
    if env.args.length > 1 then Except.error StErr.tooManyArgs
    else
      match env.args with
      | [a] =>
        match parseRoot env.unmarshalText a with
        | none => Except.error (StErr.parseRoot a)
        | some root => traverseStateAt env root
      | _ => traverseStateAt env headBlock.root

/-! ## traverse-rawstate (`traverseRawState`, snapshot.go lines 449-602) -/

/-- The leaf payload of an account-trie node when `accIter.Leaf()` holds:
`accIter.LeafKey()` (as a hash) and `accIter.LeafBlob()`. -/
structure RawLeaf where
  key : Hash
  blob : Bytes
deriving DecidableEq, Repr

/-- One node yielded by the account trie's `NodeIterator` under
`Next(true)`: its own hash (`accIter.Hash()`, `0` for an embedded node
that has no hash of its own), its path, and its leaf payload when it is
a leaf. -/
structure RawNodeView where
  hash : Hash
  path : Bytes
  leaf : Option RawLeaf
deriving DecidableEq, Repr

/-- One node yielded by a storage trie's `NodeIterator` under
`Next(true)`. -/
structure StorageNodeView where
  hash : Hash
  path : Bytes
  isLeaf : Bool
deriving DecidableEq, Repr

/-- Outcome of opening one storage trie and its node iterator during
`traverseRawState`: `trie.NewStateTrie` may fail, `NodeIterator` may
fail, or the iterator yields `nodes` and then reports the terminal
`storageIter.Error()`. -/
inductive StorageSrc where
  | trieFail (msg : String)
  | iterFail (msg : String)
  | iter (nodes : List StorageNodeView) (err : Option String)
deriving DecidableEq, Repr

/-- Errors surfaced by the `traverse-rawstate` command.  Where the Go
code logs the offending reference and returns a fixed error string, the
modelled error carries the logged reference. -/
inductive RawErr where
  | noHeadBlock
  | tooManyArgs
  | parseRoot (s : String)
  | openTrie (root : Hash) (msg : String)
  | openIter (root : Hash) (msg : String)
  | missingAccountNode (h : Hash)
  | invalidAccountNode (h : Hash)
  | invalidAccount
  | missingStorageTrie (root : Hash)
  | openStorageIter (root : Hash) (msg : String)
  | missingStorageNode (h : Hash)
  | invalidStorageNode (h : Hash)
  | storageIterErr (root : Hash) (msg : String)
  | missingCode (accountKey : Hash)
  | accIterErr (root : Hash) (msg : String)
deriving DecidableEq, Repr

/-- Counters reported by `traverseRawState` on success. -/
structure RawStats where
  nodes : Nat
  accounts : Nat
  slots : Nat
  codes : Nat
deriving DecidableEq, Repr

/-- External collaborators of `traverseRawState`.  `nodeReaderOk` is
whether `triedb.NodeReader(root)` opens; `readNode` is
`reader.Node(owner, path, hash)` (`[]` meaning absent); `keccak` is the
digest recomputed through `crypto.NewKeccakState`; `storageSrc` is keyed
by `(stateRoot, accountHash, storageRoot)` as in `trie.StorageTrieID`. -/
structure RawEnv where
  headBlock : Option Block
  args : List String
  unmarshalText : String → Option Hash
  newStateTrie : Hash → Except String Unit
  accIter : Hash → Except String (List RawNodeView × Option String)
  nodeReaderOk : Hash → Bool
  readNode : Hash → Bytes → Hash → Bytes
  keccak : Bytes → Hash
  decodeAccount : Bytes → Option StateAccount
  storageSrc : Hash → Hash → Hash → StorageSrc
  hasCode : Bytes → Bool

/-- Outcome of the per-node integrity check of `traverseRawState`
(snapshot.go lines 514-527 and 555-568): an embedded node (hash `0`) is
skipped; otherwise the stored bytes are fetched and must be non-empty
and must hash back to the node's claimed hash. -/
inductive NodeStatus where
  | ok
  | missing
  | mismatch
deriving DecidableEq, Repr

/-- The check applied to one visited node. -/
def nodeStatus (env : RawEnv) (owner : Hash) (path : Bytes) (h : Hash) :
    NodeStatus :=
  if h = 0 then NodeStatus.ok
  else
    let blob := env.readNode owner path h
    if blob.length = 0 then NodeStatus.missing
    else if env.keccak blob = h then NodeStatus.ok
    else NodeStatus.mismatch

/-- The storage-trie node loop of `traverseRawState` (snapshot.go lines
549-577): every yielded node bumps the node counter, non-embedded nodes
are fetched and hash-checked, leaves bump the slot counter. -/
def rawStorageLoop (env : RawEnv) (owner : Hash) :
    List StorageNodeView → Nat → Nat → Except RawErr (Nat × Nat)
  | [], nodes, slots => Except.ok (nodes, slots)
  | n :: rest, nodes, slots =>
    match nodeStatus env owner n.path n.hash with
    | NodeStatus.missing => Except.error (RawErr.missingStorageNode n.hash)
    | NodeStatus.mismatch => Except.error (RawErr.invalidStorageNode n.hash)
    | NodeStatus.ok =>
      rawStorageLoop env owner rest (nodes + 1)
        (if n.isLeaf then slots + 1 else slots)

/-- The account-trie node loop of `traverseRawState` (snapshot.go lines
508-595): every node is counted and hash-checked; a leaf is decoded as
an account, its storage trie is walked node by node when its storage
root is non-empty, and its code blob must exist when its code hash is
non-empty. -/
def rawAccountLoop (env : RawEnv) (root : Hash) :
    List RawNodeView → RawStats → Except RawErr RawStats
  | [], s => Except.ok s
  | n :: rest, s =>
    let s := { s with nodes := s.nodes + 1 }
    match nodeStatus env 0 n.path n.hash with
    | NodeStatus.missing => Except.error (RawErr.missingAccountNode n.hash)
    | NodeStatus.mismatch => Except.error (RawErr.invalidAccountNode n.hash)
    | NodeStatus.ok =>
      match n.leaf with
      | none => rawAccountLoop env root rest s
      | some lv =>
        let s := { s with accounts := s.accounts + 1 }
        match env.decodeAccount lv.blob with
        | none => Except.error RawErr.invalidAccount
        | some acc =>
          match (if acc.root ≠ emptyRootHash then
                   match env.storageSrc root lv.key acc.root with
                   | StorageSrc.trieFail _ =>
                     Except.error (RawErr.missingStorageTrie acc.root)
                   | StorageSrc.iterFail msg =>
                     Except.error (RawErr.openStorageIter acc.root msg)
                   | StorageSrc.iter snodes serr =>
                     match rawStorageLoop env lv.key snodes s.nodes s.slots with
                     | Except.error e => Except.error e
                     | Except.ok (nn, ss) =>
                       match serr with
                       | some msg =>
                         Except.error (RawErr.storageIterErr acc.root msg)
                       | none => Except.ok (nn, ss)
                 else Except.ok (s.nodes, s.slots) :
                   Except RawErr (Nat × Nat)) with
          | Except.error e => Except.error e
          | Except.ok (nn, ss) =>
            if acc.codeHash ≠ emptyCodeHashBytes then
              if env.hasCode acc.codeHash then
                rawAccountLoop env root rest
                  { nodes := nn, accounts := s.accounts,
                    slots := ss, codes := s.codes + 1 }
              else Except.error (RawErr.missingCode lv.key)
            else
              rawAccountLoop env root rest
                { nodes := nn, accounts := s.accounts,
                  slots := ss, codes := s.codes }

/-- The tail of `traverseRawState` once the root is resolved (snapshot.go
lines 483-601): open the trie and its iterator, then open the node
reader — when the reader cannot be opened the Go code logs
"State is non-existent" and returns `nil` (line 506), modelled as
`Except.ok none`; on a complete traversal it returns the counters. -/
def traverseRawStateAt (env : RawEnv) (root : Hash) :
    Except RawErr (Option RawStats) :=
  match env.newStateTrie root with
  | Except.error msg => Except.error (RawErr.openTrie root msg)
  | Except.ok _ =>
    match env.accIter root with
    | Except.error msg => Except.error (RawErr.openIter root msg)
    | Except.ok (nodesList, terr) =>
      if env.nodeReaderOk root then
        match rawAccountLoop env root nodesList ⟨0, 0, 0, 0⟩ with
        | Except.error e => Except.error e
        | Except.ok s =>
          match terr with
          | some msg => Except.error (RawErr.accIterErr root msg)
          | none => Except.ok (some s)
      else Except.ok none

/-- `traverseRawState` (snapshot.go lines 449-602): head-block check,
argument-count check, root resolution (head root by default), then
`traverseRawStateAt`. -/
def traverseRawState (env : RawEnv) : Except RawErr (Option RawStats) :=
  match env.headBlock with
  | none => Except.error RawErr.noHeadBlock
  | some headBlock =>
    if env.args.length > 1 then Except.error RawErr.tooManyArgs
    else
      match env.args with
      | [a] =>
        match parseRoot env.unmarshalText a with
        | none => Except.error (RawErr.parseRoot a)
        | some root => traverseRawStateAt env root
      | _ => traverseRawStateAt env headBlock.root

/-! ## Node references and the traversal-order failure scan

Spec-side vocabulary for the node-level verifier: the Node Reference
`(owner, path, hash)` of §3, the list of references visited by a
`traverse-rawstate` run in traversal order, and the first reference (if
any) whose stored bytes are absent or do not hash back to the claimed
hash. -/

/-- A Node Reference as in §3 of the spec, tagged with whether it lies in
a storage trie (`owner` is the owning account's hash) or the account trie
(`owner` is zero). -/
structure NodeRef where
  owner : Hash
  path : Bytes
  hash : Hash
  isStorage : Bool
deriving DecidableEq, Repr

/-- The references of the nodes of one storage trie, in iteration
order. -/
def storageRefs (owner : Hash) (sns : List StorageNodeView) : List NodeRef :=
  sns.map (fun sn => ⟨owner, sn.path, sn.hash, true⟩)

/-- The storage-trie references contributed by one account-trie node:
none unless it is a leaf whose account decodes and has a non-empty
storage root with an openable storage iterator. -/
def storageRefsOf (env : RawEnv) (root : Hash) (n : RawNodeView) :
    List NodeRef :=
  match n.leaf with
  | none => []
  | some lv =>
    match env.decodeAccount lv.blob with
    | none => []
    | some acc =>
      if acc.root = emptyRootHash then []
      else
        match env.storageSrc root lv.key acc.root with
        | StorageSrc.iter sns _ => storageRefs lv.key sns
        | _ => []

/-- All references visited by the raw traversal, in visit order: each
account-trie node followed by the nodes of its storage trie. -/
def refsOf (env : RawEnv) (root : Hash) : List RawNodeView → List NodeRef
  | [] => []
  | n :: rest =>
    (⟨0, n.path, n.hash, false⟩ :: storageRefsOf env root n) ++
      refsOf env root rest

/-- The error `traverse-rawstate` raises at one reference, if its check
fails: absent bytes or a digest mismatch, named after the reference's
hash. -/
def refErr (env : RawEnv) (r : NodeRef) : Option RawErr :=
  match nodeStatus env r.owner r.path r.hash with
  | NodeStatus.ok => none
  | NodeStatus.missing =>
    some (if r.isStorage then RawErr.missingStorageNode r.hash
          else RawErr.missingAccountNode r.hash)
  | NodeStatus.mismatch =>
    some (if r.isStorage then RawErr.invalidStorageNode r.hash
          else RawErr.invalidAccountNode r.hash)

/-- The first failing reference's error, in visit order. -/
def firstRefErr (env : RawEnv) : List NodeRef → Option RawErr
  | [] => none
  | r :: rest =>
    match refErr env r with
    | some e => some e
    | none => firstRefErr env rest

/-- Side conditions at one account-trie node that are unrelated to the
node-hash checks: its leaf (if any) decodes, its storage iterator opens
and terminates cleanly when the storage root is non-empty, and its code
blob exists when the code hash is non-empty. -/
def benignNode (env : RawEnv) (root : Hash) (n : RawNodeView) : Bool :=
  match n.leaf with
  | none => true
  | some lv =>
    match env.decodeAccount lv.blob with
    | none => false
    | some acc =>
      (if acc.root = emptyRootHash then true
       else
         match env.storageSrc root lv.key acc.root with
         | StorageSrc.iter _ none => true
         | _ => false) &&
      (acc.codeHash = emptyCodeHashBytes || env.hasCode acc.codeHash)

lemma firstRefErr_append (env : RawEnv) (xs ys : List NodeRef) :
    firstRefErr env (xs ++ ys) =
      match firstRefErr env xs with
      | some e => some e
      | none => firstRefErr env ys := by
  induction xs with
  | nil => simp [firstRefErr]
  | cons r rest ih =>
    simp only [List.cons_append, firstRefErr]
    cases h : refErr env r with
    | some e => simp
    | none => simpa using ih

lemma rawStorageLoop_spec (env : RawEnv) (owner : Hash) :
    ∀ (sns : List StorageNodeView) (nodes slots : Nat),
      (∀ e, firstRefErr env (storageRefs owner sns) = some e →
         rawStorageLoop env owner sns nodes slots = Except.error e) ∧
      (firstRefErr env (storageRefs owner sns) = none →
         ∃ ss, rawStorageLoop env owner sns nodes slots =
           Except.ok (nodes + sns.length, ss)) := by
  intro sns
  induction sns with
  | nil =>
    intro nodes slots
    refine ⟨?_, ?_⟩
    · intro e he; simp [storageRefs, firstRefErr] at he
    · intro _; exact ⟨slots, rfl⟩
  | cons n rest ih =>
    intro nodes slots
    have hrefs : storageRefs owner (n :: rest) =
        (⟨owner, n.path, n.hash, true⟩ : NodeRef) :: storageRefs owner rest := by
      simp [storageRefs]
    cases hst : nodeStatus env owner n.path n.hash with
    | missing =>
      have hre : refErr env (⟨owner, n.path, n.hash, true⟩ : NodeRef) =
          some (RawErr.missingStorageNode n.hash) := by
        simp [refErr, hst]
      refine ⟨?_, ?_⟩
      · intro e he
        rw [hrefs] at he
        simp only [firstRefErr, hre] at he
        cases he
        simp [rawStorageLoop, hst]
      · intro hnone
        rw [hrefs] at hnone
        simp only [firstRefErr, hre] at hnone
        exact absurd hnone (Option.some_ne_none _)
    | mismatch =>
      have hre : refErr env (⟨owner, n.path, n.hash, true⟩ : NodeRef) =
          some (RawErr.invalidStorageNode n.hash) := by
        simp [refErr, hst]
      refine ⟨?_, ?_⟩
      · intro e he
        rw [hrefs] at he
        simp only [firstRefErr, hre] at he
        cases he
        simp [rawStorageLoop, hst]
      · intro hnone
        rw [hrefs] at hnone
        simp only [firstRefErr, hre] at hnone
        exact absurd hnone (Option.some_ne_none _)
    | ok =>
      have hre : refErr env (⟨owner, n.path, n.hash, true⟩ : NodeRef) = none := by
        simp [refErr, hst]
      have hstep : rawStorageLoop env owner (n :: rest) nodes slots =
          rawStorageLoop env owner rest (nodes + 1)
            (if n.isLeaf then slots + 1 else slots) := by
        simp [rawStorageLoop, hst]
      refine ⟨?_, ?_⟩
      · intro e he
        rw [hrefs] at he
        simp only [firstRefErr, hre] at he
        rw [hstep]
        exact (ih (nodes + 1) (if n.isLeaf then slots + 1 else slots)).1 e he
      · intro hnone
        rw [hrefs] at hnone
        simp only [firstRefErr, hre] at hnone
        obtain ⟨ss, hss⟩ :=
          (ih (nodes + 1) (if n.isLeaf then slots + 1 else slots)).2 hnone
        refine ⟨ss, ?_⟩
        rw [hstep, hss]
        have : nodes + 1 + rest.length = nodes + (n :: rest).length := by
          simp [List.length_cons]; omega
        rw [this]

lemma rawAccountLoop_spec (env : RawEnv) (root : Hash) :
    ∀ (ns : List RawNodeView) (s : RawStats),
      (∀ n ∈ ns, benignNode env root n = true) →
      (∀ e, firstRefErr env (refsOf env root ns) = some e →
         rawAccountLoop env root ns s = Except.error e) ∧
      (firstRefErr env (refsOf env root ns) = none →
         ∃ a sl c, rawAccountLoop env root ns s =
           Except.ok ⟨s.nodes + (refsOf env root ns).length, a, sl, c⟩) := by
  intro ns
  induction ns with
  | nil =>
    intro s _
    refine ⟨?_, ?_⟩
    · intro e he; simp [refsOf, firstRefErr] at he
    · intro _; exact ⟨s.accounts, s.slots, s.codes, rfl⟩
  | cons n rest ih =>
    intro s hben
    have hbn := hben n (List.mem_cons_self n rest)
    have hbrest : ∀ m ∈ rest, benignNode env root m = true :=
      fun m hm => hben m (List.mem_cons_of_mem n hm)
    have hrefs : refsOf env root (n :: rest) =
        (⟨0, n.path, n.hash, false⟩ : NodeRef) ::
          (storageRefsOf env root n ++ refsOf env root rest) := by
      simp [refsOf]
    cases hst : nodeStatus env 0 n.path n.hash with
    | missing =>
      have hre : refErr env (⟨0, n.path, n.hash, false⟩ : NodeRef) =
          some (RawErr.missingAccountNode n.hash) := by simp [refErr, hst]
      refine ⟨?_, ?_⟩
      · intro e he
        rw [hrefs] at he
        simp only [firstRefErr, hre] at he
        cases he
        simp [rawAccountLoop, hst]
      · intro hnone
        rw [hrefs] at hnone
        simp only [firstRefErr, hre] at hnone
        exact absurd hnone (Option.some_ne_none _)
    | mismatch =>
      have hre : refErr env (⟨0, n.path, n.hash, false⟩ : NodeRef) =
          some (RawErr.invalidAccountNode n.hash) := by simp [refErr, hst]
      refine ⟨?_, ?_⟩
      · intro e he
        rw [hrefs] at he
        simp only [firstRefErr, hre] at he
        cases he
        simp [rawAccountLoop, hst]
      · intro hnone
        rw [hrefs] at hnone
        simp only [firstRefErr, hre] at hnone
        exact absurd hnone (Option.some_ne_none _)
    | ok =>
      have hre : refErr env (⟨0, n.path, n.hash, false⟩ : NodeRef) = none := by
        simp [refErr, hst]
      have hfirst : firstRefErr env (refsOf env root (n :: rest)) =
          match firstRefErr env (storageRefsOf env root n) with
          | some e => some e
          | none => firstRefErr env (refsOf env root rest) := by
        rw [hrefs]
        simp only [firstRefErr, hre]
        exact firstRefErr_append env _ _
      have finishCase : ∀ s₂ : RawStats,
          rawAccountLoop env root (n :: rest) s =
            rawAccountLoop env root rest s₂ →
          s₂.nodes + (refsOf env root rest).length =
            s.nodes + (refsOf env root (n :: rest)).length →
          firstRefErr env (storageRefsOf env root n) = none →
          (∀ e, firstRefErr env (refsOf env root (n :: rest)) = some e →
             rawAccountLoop env root (n :: rest) s = Except.error e) ∧
          (firstRefErr env (refsOf env root (n :: rest)) = none →
           ∃ a sl c, rawAccountLoop env root (n :: rest) s =
             Except.ok ⟨s.nodes + (refsOf env root (n :: rest)).length,
               a, sl, c⟩) := by
        intro s₂ hstep hlen hfs
        refine ⟨?_, ?_⟩
        · intro e he
          simp only [hfirst, hfs] at he
          rw [hstep]
          exact (ih s₂ hbrest).1 e he
        · intro hnone
          simp only [hfirst, hfs] at hnone
          obtain ⟨a, sl, c, h⟩ := (ih s₂ hbrest).2 hnone
          exact ⟨a, sl, c, by rw [hstep, h, hlen]⟩
      cases hleaf : n.leaf with
      | none =>
        have hsrefs : storageRefsOf env root n = [] := by
          simp [storageRefsOf, hleaf]
        refine finishCase { s with nodes := s.nodes + 1 } ?_ ?_ ?_
        · simp [rawAccountLoop, hst, hleaf]
        · rw [hrefs, hsrefs]
          simp
          omega
        · simp [hsrefs, firstRefErr]
      | some lv =>
        simp only [benignNode, hleaf] at hbn
        cases hdec : env.decodeAccount lv.blob with
        | none => rw [hdec] at hbn; cases hbn
        | some acc =>
          rw [hdec, Bool.and_eq_true] at hbn
          obtain ⟨hbs, hbc⟩ := hbn
          have hcode : (acc.codeHash = emptyCodeHashBytes) ∨
              (acc.codeHash ≠ emptyCodeHashBytes ∧
               env.hasCode acc.codeHash = true) := by
            by_cases hch : acc.codeHash = emptyCodeHashBytes
            · exact Or.inl hch
            · refine Or.inr ⟨hch, ?_⟩
              simpa [hch] using hbc
          by_cases hroot : acc.root = emptyRootHash
          · -- empty storage root: no storage trie is walked
            have hsrefs : storageRefsOf env root n = [] := by
              simp [storageRefsOf, hleaf, hdec, hroot]
            rcases hcode with hch | ⟨hch, hhc⟩
            · refine finishCase
                { nodes := s.nodes + 1, accounts := s.accounts + 1,
                  slots := s.slots, codes := s.codes } ?_ ?_ ?_
              · simp [rawAccountLoop, hst, hleaf, hdec, hroot, hch]
              · rw [hrefs, hsrefs]
                simp
                omega
              · simp [hsrefs, firstRefErr]
            · refine finishCase
                { nodes := s.nodes + 1, accounts := s.accounts + 1,
                  slots := s.slots, codes := s.codes + 1 } ?_ ?_ ?_
              · simp [rawAccountLoop, hst, hleaf, hdec, hroot, hch, hhc]
              · rw [hrefs, hsrefs]
                simp
                omega
              · simp [hsrefs, firstRefErr]
          · -- non-empty storage root: the storage trie is walked node by node
            rw [if_neg hroot] at hbs
            cases hsrc : env.storageSrc root lv.key acc.root with
            | trieFail msg => rw [hsrc] at hbs; cases hbs
            | iterFail msg => rw [hsrc] at hbs; cases hbs
            | iter sns serr =>
              cases serr with
              | some msg => rw [hsrc] at hbs; cases hbs
              | none =>
                have hsrefs : storageRefsOf env root n =
                    storageRefs lv.key sns := by
                  simp [storageRefsOf, hleaf, hdec, hroot, hsrc]
                have hsl := rawStorageLoop_spec env lv.key sns
                  (s.nodes + 1) s.slots
                cases hfs : firstRefErr env (storageRefs lv.key sns) with
                | some e₀ =>
                  -- the storage loop aborts; so does the account loop
                  have hloop := hsl.1 e₀ hfs
                  have hstep : rawAccountLoop env root (n :: rest) s =
                      Except.error e₀ := by
                    simp [rawAccountLoop, hst, hleaf, hdec, hroot, hsrc, hloop]
                  refine ⟨?_, ?_⟩
                  · intro e he
                    simp only [hfirst, hsrefs, hfs] at he
                    cases he
                    exact hstep
                  · intro hnone
                    simp only [hfirst, hsrefs, hfs] at hnone
                    exact absurd hnone (Option.some_ne_none _)
                | none =>
                  obtain ⟨ss, hloop⟩ := hsl.2 hfs
                  rcases hcode with hch | ⟨hch, hhc⟩
                  · refine finishCase
                      { nodes := s.nodes + 1 + sns.length,
                        accounts := s.accounts + 1,
                        slots := ss, codes := s.codes } ?_ ?_ ?_
                    · simp [rawAccountLoop, hst, hleaf, hdec, hroot, hsrc,
                        hloop, hch]
                    · rw [hrefs, hsrefs]
                      simp [storageRefs]
                      omega
                    · rw [hsrefs]; exact hfs
                  · refine finishCase
                      { nodes := s.nodes + 1 + sns.length,
                        accounts := s.accounts + 1,
                        slots := ss, codes := s.codes + 1 } ?_ ?_ ?_
                    · simp [rawAccountLoop, hst, hleaf, hdec, hroot, hsrc,
                        hloop, hch, hhc]
                    · rw [hrefs, hsrefs]
                      simp [storageRefs]
                      omega
                    · rw [hsrefs]; exact hfs

/-! ## Claim theorems -/

/-- C3: `prune-state` requires the hash-addressed storage scheme: whenever
the store's state scheme is not the hash scheme, the command fails with a
scheme-mismatch error (a fatal `log.Crit`) before constructing the pruner
and before any deletion or other mutation of the node store — the store
`st` is returned unchanged, and the outcome does not depend on the pruner
fields of the environment at all. -/
theorem pruneState_scheme_mismatch_fails_fast {σ : Type}
    (env : PruneEnv σ) (st : σ) (h : env.stateScheme ≠ Scheme.hash) :
    pruneState env st = (Except.error PruneErr.schemeMismatch, st) := by
  simp [pruneState, h]

/-- A concrete `prune-state` invocation against a path-scheme store: the
command fails with the scheme-mismatch error and the store is untouched,
even though the environment's pruner would mutate it. -/
def pathSchemePruneEnv : PruneEnv Nat where
  stateScheme := Scheme.path
  newPruner := Except.ok ()
  args := []
  unmarshalText := fun _ => none
  prune := fun _ st => (Except.ok (), st + 1)

theorem pruneState_scheme_mismatch_fails_fast_witness :
    pathSchemePruneEnv.stateScheme ≠ Scheme.hash ∧
    pruneState pathSchemePruneEnv 5 =
      (Except.error PruneErr.schemeMismatch, 5) :=
  ⟨by decide, pruneState_scheme_mismatch_fails_fast pathSchemePruneEnv 5 (by decide)⟩

lemma convPhase_cases (env : MigEnv) (st st₁ : MigState)
    (h : convPhase env st = Except.ok st₁) :
    st₁ = runConversion env st ∨ st₁ = st := by
  unfold convPhase at h
  repeat' split at h
  all_goals first
    | exact Or.inl (Except.ok.inj h).symm
    | exact Or.inr (Except.ok.inj h).symm
    | exact absurd h (by simp)

lemma convPhase_frame (env : MigEnv) (st st₁ : MigState)
    (h : convPhase env st = Except.ok st₁) :
    st₁.hashNodesDeleted = st.hashNodesDeleted ∧
    st₁.freezerOffset = st.freezerOffset := by
  rcases convPhase_cases env st st₁ h with h₁ | h₁ <;> subst h₁ <;>
    simp [runConversion]

/-- C6: on completion of the `hbss-to-pbss` conversion phase, the command
first resets the state freezer table offset to the persistent state ID
read back from the store; only when that reset succeeds does it prune the
old hash-scheme trie nodes.  If the reset fails, the command aborts with
the reset error and the old-scheme nodes are exactly as the conversion
left them — and the conversion itself never touches them. -/
theorem hbss2pbss_reset_offset_before_prune (env : MigEnv)
    (st st₁ : MigState) (hconv : convPhase env st = Except.ok st₁) :
    st₁.hashNodesDeleted = st.hashNodesDeleted ∧
    (∀ msg, env.resetOffsetErr st₁.persistentStateID = some msg →
       hbss2pbss env st = (Except.error (MigErr.resetOffset msg), st₁)) ∧
    (env.resetOffsetErr st₁.persistentStateID = none →
     env.pruneHashNodesErr = none →
       hbss2pbss env st =
         (Except.ok (),
          { st₁ with freezerOffset := st₁.persistentStateID,
                     hashNodesDeleted := true })) := by
  refine ⟨(convPhase_frame env st st₁ hconv).1, ?_, ?_⟩
  · intro msg hmsg
    simp [hbss2pbss, hconv, hmsg]
  · intro h₁ h₂
    simp [hbss2pbss, hconv, h₁, h₂]

/-- A concrete migration run: the conversion produces persistent state ID
12 from a fresh store; the command then resets the freezer offset to 12
and prunes the hash-scheme nodes. -/
def migEnvFresh : MigEnv where
  args := []
  parseUint := fun _ => none
  force := false
  headHeaderNumber := some 3
  canonicalHash := fun _ => 4
  headerRoot := fun _ => 9
  newTrie := fun _ => Except.ok ()
  newH2P := fun _ _ _ => Except.ok ()
  runStateID := fun _ => 12
  resetOffsetErr := fun _ => none
  pruneHashNodesErr := none

theorem hbss2pbss_reset_offset_before_prune_witness :
    hbss2pbss migEnvFresh ⟨0, 5, false, false⟩ =
      (Except.ok (), ⟨12, 12, true, true⟩) :=
  (hbss2pbss_reset_offset_before_prune migEnvFresh
    ⟨0, 5, false, false⟩ ⟨12, 5, false, true⟩ rfl).2.2 rfl rfl

/-- C7 (divergence witness): when the persistent state ID read back after
the conversion phase is still zero, `hbss2pbss` does not abort: it only
logs the condition (dbcmd.go line 1309), then resets the freezer table
offset to `0` and deletes all hash-scheme trie nodes anyway.  Here the
conversion walk leaves the ID at `0`, the command returns success, the
freezer offset is reset from 7 to 0 and the old nodes are pruned. -/
def migEnvStuckZero : MigEnv where
  args := []
  parseUint := fun _ => none
  force := false
  headHeaderNumber := some 5
  canonicalHash := fun _ => 9
  headerRoot := fun _ => 3
  newTrie := fun _ => Except.ok ()
  newH2P := fun _ _ _ => Except.ok ()
  runStateID := fun _ => 0
  resetOffsetErr := fun _ => none
  pruneHashNodesErr := none

theorem hbss2pbss_zero_state_id_proceeds :
    hbss2pbss migEnvStuckZero ⟨0, 7, false, false⟩ =
      (Except.ok (), ⟨0, 0, true, true⟩) := rfl

/-- C9: when the stored persistent state ID is nonzero and `--force` is
not set, the conversion walk is skipped entirely (the final state's
`converted` flag is whatever it was before), yet the command still resets
the state freezer table offset to that persistent state ID and still
deletes all hash-scheme trie nodes. -/
theorem hbss2pbss_skip_still_resets_and_prunes (env : MigEnv)
    (st : MigState) (hargs : env.args = [])
    (hid : st.persistentStateID ≠ 0) (hforce : env.force = false)
    (hreset : env.resetOffsetErr st.persistentStateID = none)
    (hprune : env.pruneHashNodesErr = none) :
    hbss2pbss env st =
      (Except.ok (),
       { st with freezerOffset := st.persistentStateID,
                 hashNodesDeleted := true }) := by
  have hconv : convPhase env st = Except.ok st := by
    simp [convPhase, hargs, hid, hforce]
  simp [hbss2pbss, hconv, hreset, hprune]

theorem hbss2pbss_skip_still_resets_and_prunes_witness :
    hbss2pbss migEnvFresh ⟨4, 1, false, false⟩ =
      (Except.ok (), ⟨4, 4, true, false⟩) :=
  hbss2pbss_skip_still_resets_and_prunes migEnvFresh
    ⟨4, 1, false, false⟩ rfl (by decide) rfl rfl rfl

/-- C8: `insecure-prune-all` requires a genesis file path argument: with
no (or an empty) argument it fails before opening the chain database and
performs no deletion; with a path, the genesis is loaded from it (as
genesis JSON directly, or from a config file as fallback — whose failure
also aborts before the database is opened) and the prune keeps exactly
the node set re-derived from that genesis. -/
theorem pruneAllState_requires_genesis_path (env : PruneAllEnv)
    (st : TrieStore) :
    (firstArg env.args = "" →
       pruneAllState env st =
         ⟨Except.error
            (PruneAllErr.fatal "Must supply path to genesis JSON file"),
          false, st⟩) ∧
    (∀ p g, firstArg env.args = p → p ≠ "" →
       env.openFile p = Except.ok () →
       env.decodeGenesisJSON p = some g →
       env.newAllPruner = Except.ok () →
       pruneAllState env st = ⟨Except.ok (), true, pruneAll g st⟩) ∧
    (∀ p g, firstArg env.args = p → p ≠ "" →
       env.openFile p = Except.ok () →
       env.decodeGenesisJSON p = none →
       env.loadConfigGenesis p = Except.ok g →
       env.newAllPruner = Except.ok () →
       pruneAllState env st = ⟨Except.ok (), true, pruneAll g st⟩) ∧
    (∀ p msg, firstArg env.args = p → p ≠ "" →
       env.openFile p = Except.ok () →
       env.decodeGenesisJSON p = none →
       env.loadConfigGenesis p = Except.error msg →
       pruneAllState env st =
         ⟨Except.error (PruneAllErr.fatal msg), false, st⟩) := by
  refine ⟨?_, ?_, ?_, ?_⟩
  · intro hp
    simp [pruneAllState, hp]
  · intro p g hp hne hopen hdec hpruner
    simp [pruneAllState, hp, hne, hopen, hdec, hpruner]
  · intro p g hp hne hopen hdec hcfg hpruner
    simp [pruneAllState, hp, hne, hopen, hdec, hcfg, hpruner]
  · intro p msg hp hne hopen hdec hcfg
    simp [pruneAllState, hp, hne, hopen, hdec, hcfg]

/-- A concrete full prune: genesis keeps keys 1 and 2; the store holds
keys 1 and 3; pruning keeps only key 1. -/
def genesisPruneEnv : PruneAllEnv where
  args := ["genesis.json"]
  openFile := fun _ => Except.ok ()
  decodeGenesisJSON := fun _ => some ⟨[1, 2]⟩
  loadConfigGenesis := fun _ => Except.error "no config"
  newAllPruner := Except.ok ()

theorem pruneAllState_requires_genesis_path_witness :
    pruneAllState genesisPruneEnv ⟨[1, 3]⟩ =
      ⟨Except.ok (), true, ⟨[1]⟩⟩ :=
  (pruneAllState_requires_genesis_path genesisPruneEnv ⟨[1, 3]⟩).2.1
    "genesis.json" ⟨[1, 2]⟩ rfl (by decide) rfl rfl rfl

/-- C5: `verify-state` runs the snapshot verification for the resolved
root first; when it fails, its error is returned and the outcome is
independent of the dangling-storage checker; when it succeeds, the
command returns the result of the dangling-storage check over the
store. -/
theorem verifyState_verify_then_dangling (env : VerifyEnv) (hb : Block)
    (hhead : env.headBlock = some hb)
    (hsnap : env.snapshotNew hb.root = Except.ok ())
    (hargs : env.args = []) :
    verifyState env = verifyAt env hb.root ∧
    (∀ root msg, env.verify root = some msg →
       verifyAt env root = Except.error (VerifyErr.verifyFailed root msg)) ∧
    (∀ root, env.verify root = none →
       verifyAt env root =
         match env.checkDangling with
         | some msg => Except.error (VerifyErr.danglingStorage msg)
         | none => Except.ok ()) := by
  refine ⟨?_, ?_, ?_⟩
  · simp [verifyState, hhead, hsnap, hargs]
  · intro root msg h
    simp [verifyAt, h]
  · intro root h
    simp [verifyAt, h]

/-- A concrete `verify-state` run where the snapshot verification of the
head root fails: the command returns that error even though the
dangling-storage check would also fail (it is never consulted). -/
def verifyEnvBadRoot : VerifyEnv where
  headBlock := some ⟨21, 9⟩
  snapshotNew := fun _ => Except.ok ()
  args := []
  unmarshalText := fun _ => none
  verify := fun root => if root = 21 then some "wrong root" else none
  checkDangling := some "dangling account"

theorem verifyState_verify_then_dangling_witness :
    verifyState verifyEnvBadRoot =
      Except.error (VerifyErr.verifyFailed 21 "wrong root") := by
  have h := verifyState_verify_then_dangling verifyEnvBadRoot ⟨21, 9⟩
    rfl rfl rfl
  rw [h.1, h.2.1 21 "wrong root" (by decide)]

/-- Whether a command outcome is a success. -/
def succeeds {ε α : Type} : Except ε α → Bool
  | Except.ok _ => true
  | Except.error _ => false

lemma succeeds_iff_ok {ε α : Type} (x : Except ε α) :
    succeeds x = true ↔ ∃ a, x = Except.ok a := by
  cases x <;> simp [succeeds]

/-- The per-leaf obligations of the account-level verification: the
account record decodes; when its storage root is not the empty-trie root
the storage walk opens and finishes without error; when its code hash is
not the empty-code hash the code blob exists in the store. -/
def leafOKb (env : StateEnv) (root : Hash) (lv : LeafView) : Bool :=
  match env.decodeAccount lv.value with
  | none => false
  | some acc =>
    (if acc.root = emptyRootHash then true
     else
       match env.storageWalk root lv.key acc.root with
       | StorageWalk.walk _ none => true
       | _ => false) &&
    (acc.codeHash = emptyCodeHashBytes || env.hasCode acc.codeHash)

lemma stLoop_ok_iff (env : StateEnv) (root : Hash) :
    ∀ (leaves : List LeafView) (s : StStats),
      (∃ s₂, stLoop env root leaves s = Except.ok s₂) ↔
      (∀ lv ∈ leaves, leafOKb env root lv = true) := by
  intro leaves
  induction leaves with
  | nil => intro s; simp [stLoop]
  | cons lv rest ih =>
    intro s
    cases hdec : env.decodeAccount lv.value with
    | none => simp [stLoop, hdec, leafOKb]
    | some acc =>
      by_cases hroot : acc.root = emptyRootHash
      · by_cases hch : acc.codeHash = emptyCodeHashBytes
        · simp [stLoop, hdec, hroot, hch, leafOKb, ih]
        · cases hhc : env.hasCode acc.codeHash with
          | true => simp [stLoop, hdec, hroot, hch, hhc, leafOKb, ih]
          | false => simp [stLoop, hdec, hroot, hch, hhc, leafOKb]
      · cases hsw : env.storageWalk root lv.key acc.root with
        | trieFail msg => simp [stLoop, hdec, hroot, hsw, leafOKb]
        | iterFail msg => simp [stLoop, hdec, hroot, hsw, leafOKb]
        | walk n terr =>
          cases terr with
          | some msg => simp [stLoop, hdec, hroot, hsw, leafOKb]
          | none =>
            by_cases hch : acc.codeHash = emptyCodeHashBytes
            · simp [stLoop, hdec, hroot, hsw, hch, leafOKb, ih]
            · cases hhc : env.hasCode acc.codeHash with
              | true => simp [stLoop, hdec, hroot, hsw, hch, hhc, leafOKb, ih]
              | false => simp [stLoop, hdec, hroot, hsw, hch, hhc, leafOKb]

/-- C4: `traverse-state` succeeds exactly when every leaf of the account
trie carries a decodable account whose storage trie (when its storage
root is non-empty) is walked completely with every node resolving, and
whose code blob (when its code hash is non-empty) exists in the store;
any undecodable account, failed storage walk, or missing code makes the
command return an error. -/
theorem traverseState_leaf_verification (env : StateEnv) (root : Hash)
    (leaves : List LeafView)
    (htrie : env.newStateTrie root = Except.ok ())
    (hiter : env.accIter root = Except.ok (leaves, none)) :
    (succeeds (traverseStateAt env root) = true ↔
      ∀ lv ∈ leaves, leafOKb env root lv = true) ∧
    ((∃ lv ∈ leaves, leafOKb env root lv = false) →
      succeeds (traverseStateAt env root) = false) := by
  have hiff := stLoop_ok_iff env root leaves ⟨0, 0, 0⟩
  cases hL : stLoop env root leaves ⟨0, 0, 0⟩ with
  | error e =>
    have hnot : ¬ ∀ lv ∈ leaves, leafOKb env root lv = true := by
      rw [← hiff]
      simp [hL]
    refine ⟨⟨?_, ?_⟩, ?_⟩
    · intro hs
      rw [succeeds_iff_ok] at hs
      obtain ⟨s, hs⟩ := hs
      simp [traverseStateAt, htrie, hiter, hL] at hs
    · intro hall
      exact absurd hall hnot
    · intro _
      simp [traverseStateAt, htrie, hiter, hL, succeeds]
  | ok s₂ =>
    have hall := hiff.mp ⟨s₂, hL⟩
    refine ⟨⟨?_, ?_⟩, ?_⟩
    · intro _
      exact hall
    · intro _
      simp [traverseStateAt, htrie, hiter, hL, succeeds]
    · rintro ⟨lv, hlv, hbad⟩
      exact absurd (hall lv hlv) (by simp [hbad])

/-- A concrete `traverse-state` run over one contract account: its
storage walk succeeds and its code is present, so the command succeeds;
the missing-code variant below exercises the abort direction. -/
def stateEnvOneContract : StateEnv where
  headBlock := some ⟨77, 3⟩
  args := []
  unmarshalText := fun _ => none
  newStateTrie := fun _ => Except.ok ()
  accIter := fun _ => Except.ok ([⟨40, [7]⟩], none)
  decodeAccount := fun b =>
    if b = [7] then some ⟨1, 100, 55, [9]⟩ else none
  storageWalk := fun root key sroot =>
    if root = 77 && key = 40 && sroot = 55 then StorageWalk.walk 2 none
    else StorageWalk.trieFail "unexpected storage trie"
  hasCode := fun ch => ch = [9]

theorem traverseState_leaf_verification_witness :
    succeeds (traverseStateAt stateEnvOneContract 77) = true :=
  (traverseState_leaf_verification stateEnvOneContract 77 [⟨40, [7]⟩]
    rfl rfl).1.mpr (by decide)

/-- C2: in `traverse-rawstate`, every visited node of the account trie
and of every storage trie that carries its own hash is fetched by its
reference and its digest recomputed.  When no side condition unrelated to
node hashing fails (`benignNode`): if some reference's bytes are absent
or hash back wrong, the traversal aborts with the error naming the first
such reference in visit order; otherwise the command succeeds and its
node counter equals the total number of nodes traversed (embedded,
hash-less nodes included). -/
theorem traverseRawState_checks_every_node (env : RawEnv) (root : Hash)
    (ns : List RawNodeView)
    (hben : ∀ n ∈ ns, benignNode env root n = true)
    (htrie : env.newStateTrie root = Except.ok ())
    (hiter : env.accIter root = Except.ok (ns, none))
    (hreader : env.nodeReaderOk root = true) :
    (∀ e, firstRefErr env (refsOf env root ns) = some e →
       traverseRawStateAt env root = Except.error e) ∧
    (firstRefErr env (refsOf env root ns) = none →
       ∃ a sl c, traverseRawStateAt env root =
         Except.ok (some ⟨(refsOf env root ns).length, a, sl, c⟩)) := by
  have h := rawAccountLoop_spec env root ns ⟨0, 0, 0, 0⟩ hben
  refine ⟨?_, ?_⟩
  · intro e he
    have hloop := h.1 e he
    simp [traverseRawStateAt, htrie, hiter, hreader, hloop]
  · intro hnone
    obtain ⟨a, sl, c, hloop⟩ := h.2 hnone
    refine ⟨a, sl, c, ?_⟩
    simp [traverseRawStateAt, htrie, hiter, hreader, hloop]

/-- A concrete raw traversal over a two-node account trie whose second
node's stored bytes hash back to a different value: the command aborts
naming exactly that node's hash. -/
def rawEnvCorrupt : RawEnv where
  headBlock := some ⟨50, 2⟩
  args := []
  unmarshalText := fun _ => none
  newStateTrie := fun _ => Except.ok ()
  accIter := fun _ =>
    Except.ok ([⟨50, [], none⟩, ⟨33, [4], none⟩], none)
  nodeReaderOk := fun _ => true
  readNode := fun _ path _ => if path = [] then [8] else [6]
  keccak := fun b => if b = [8] then 50 else 99
  decodeAccount := fun _ => none
  storageSrc := fun _ _ _ => StorageSrc.trieFail "unused"
  hasCode := fun _ => false

theorem traverseRawState_checks_every_node_witness :
    traverseRawStateAt rawEnvCorrupt 50 =
      Except.error (RawErr.invalidAccountNode 33) :=
  (traverseRawState_checks_every_node rawEnvCorrupt 50
    [⟨50, [], none⟩, ⟨33, [4], none⟩] (by decide) rfl rfl rfl).1
    (RawErr.invalidAccountNode 33) (by decide)

/-- C1 (amended): integrity failures detected by `traverse-rawstate`
during the traversal — a failing node, a terminal iterator error, a
failure to open the trie or its iterator — all surface as a non-nil
error; however, when the node reader for the requested root cannot be
opened, the command logs "State is non-existent" and returns success
(`nil`) without traversing anything. -/
theorem traverseRawState_error_paths (env : RawEnv) (root : Hash)
    (ns : List RawNodeView) (terr : Option String) (e : RawErr)
    (s : RawStats) (msg : String) :
    (env.newStateTrie root = Except.ok () →
     env.accIter root = Except.ok (ns, terr) →
     env.nodeReaderOk root = false →
     traverseRawStateAt env root = Except.ok none) ∧
    (env.newStateTrie root = Except.ok () →
     env.accIter root = Except.ok (ns, terr) →
     env.nodeReaderOk root = true →
     rawAccountLoop env root ns ⟨0, 0, 0, 0⟩ = Except.error e →
     traverseRawStateAt env root = Except.error e) ∧
    (env.newStateTrie root = Except.ok () →
     env.accIter root = Except.ok (ns, some msg) →
     env.nodeReaderOk root = true →
     rawAccountLoop env root ns ⟨0, 0, 0, 0⟩ = Except.ok s →
     traverseRawStateAt env root =
       Except.error (RawErr.accIterErr root msg)) ∧
    (env.newStateTrie root = Except.error msg →
     traverseRawStateAt env root =
       Except.error (RawErr.openTrie root msg)) ∧
    (env.newStateTrie root = Except.ok () →
     env.accIter root = Except.error msg →
     traverseRawStateAt env root =
       Except.error (RawErr.openIter root msg)) := by
  refine ⟨?_, ?_, ?_, ?_, ?_⟩
  · intro h₁ h₂ h₃
    simp [traverseRawStateAt, h₁, h₂, h₃]
  · intro h₁ h₂ h₃ h₄
    simp [traverseRawStateAt, h₁, h₂, h₃, h₄]
  · intro h₁ h₂ h₃ h₄
    simp [traverseRawStateAt, h₁, h₂, h₃, h₄]
  · intro h₁
    simp [traverseRawStateAt, h₁]
  · intro h₁ h₂
    simp [traverseRawStateAt, h₁, h₂]

/-- A `traverse-rawstate` invocation whose node reader cannot be opened
for the requested root (the head root, 1): the command returns success.
This refutes the claim that a missing or unreadable root yields a
non-nil error from `traverse-rawstate`. -/
def rawEnvUnreadableRoot : RawEnv where
  headBlock := some ⟨1, 0⟩
  args := []
  unmarshalText := fun _ => none
  newStateTrie := fun _ => Except.ok ()
  accIter := fun _ => Except.ok ([], none)
  nodeReaderOk := fun _ => false
  readNode := fun _ _ _ => []
  keccak := fun _ => 0
  decodeAccount := fun _ => none
  storageSrc := fun _ _ _ => StorageSrc.trieFail "unused"
  hasCode := fun _ => false

theorem traverseRawState_unreadable_root_counterexample :
    rawEnvUnreadableRoot.nodeReaderOk 1 = false ∧
    traverseRawState rawEnvUnreadableRoot = Except.ok none :=
  ⟨rfl, rfl⟩

theorem traverseRawState_error_paths_witness :
    traverseRawStateAt rawEnvUnreadableRoot 1 = Except.ok none :=
  (traverseRawState_error_paths rawEnvUnreadableRoot 1 [] none
    RawErr.noHeadBlock ⟨0, 0, 0, 0⟩ "").1 rfl rfl rfl

/-- C10: for `verify-state`, `traverse-state` and `traverse-rawstate`,
with no root argument the root used is the head block's state root, and
with no head block each command errors before opening any trie or
snapshot tree (the outcome is the same for every trie/snapshot
collaborator); with exactly one argument the supplied root is parsed,
and a malformed root yields a parse error before any traversal (for
`verify-state`, after the snapshot tree is opened at the head root). -/
theorem commands_root_resolution (stEnv : StateEnv) (rawEnv : RawEnv)
    (vEnv : VerifyEnv) (hb : Block) (a : String) :
    (stEnv.headBlock = none →
       traverseState stEnv = Except.error StErr.noHeadBlock) ∧
    (rawEnv.headBlock = none →
       traverseRawState rawEnv = Except.error RawErr.noHeadBlock) ∧
    (vEnv.headBlock = none →
       verifyState vEnv = Except.error VerifyErr.noHeadBlock) ∧
    (stEnv.headBlock = some hb → stEnv.args = [] →
       traverseState stEnv = traverseStateAt stEnv hb.root) ∧
    (rawEnv.headBlock = some hb → rawEnv.args = [] →
       traverseRawState rawEnv = traverseRawStateAt rawEnv hb.root) ∧
    (vEnv.headBlock = some hb → vEnv.snapshotNew hb.root = Except.ok () →
     vEnv.args = [] → verifyState vEnv = verifyAt vEnv hb.root) ∧
    (stEnv.headBlock = some hb → stEnv.args = [a] →
     stEnv.unmarshalText a = none →
       traverseState stEnv = Except.error (StErr.parseRoot a)) ∧
    (rawEnv.headBlock = some hb → rawEnv.args = [a] →
     rawEnv.unmarshalText a = none →
       traverseRawState rawEnv = Except.error (RawErr.parseRoot a)) ∧
    (vEnv.headBlock = some hb → vEnv.snapshotNew hb.root = Except.ok () →
     vEnv.args = [a] → vEnv.unmarshalText a = none →
       verifyState vEnv = Except.error (VerifyErr.parseRoot a)) := by
  refine ⟨?_, ?_, ?_, ?_, ?_, ?_, ?_, ?_, ?_⟩
  · intro h
    simp [traverseState, h]
  · intro h
    simp [traverseRawState, h]
  · intro h
    simp [verifyState, h]
  · intro h₁ h₂
    simp [traverseState, h₁, h₂]
  · intro h₁ h₂
    simp [traverseRawState, h₁, h₂]
  · intro h₁ h₂ h₃
    simp [verifyState, h₁, h₂, h₃]
  · intro h₁ h₂ h₃
    simp [traverseState, h₁, h₂, parseRoot, h₃]
  · intro h₁ h₂ h₃
    simp [traverseRawState, h₁, h₂, parseRoot, h₃]
  · intro h₁ h₂ h₃ h₄
    simp [verifyState, h₁, h₂, h₃, parseRoot, h₄]

/-- Concrete instantiations for the root-resolution claims: a
`traverse-state` environment with head root 7, and variants with no
head block or with a malformed root argument. -/
def stateEnvHead : StateEnv where
  headBlock := some ⟨7, 0⟩
  args := []
  unmarshalText := fun _ => none
  newStateTrie := fun _ => Except.ok ()
  accIter := fun _ => Except.ok ([], none)
  decodeAccount := fun _ => none
  storageWalk := fun _ _ _ => StorageWalk.trieFail "unused"
  hasCode := fun _ => false

def rawEnvHead : RawEnv where
  headBlock := some ⟨7, 0⟩
  args := []
  unmarshalText := fun _ => none
  newStateTrie := fun _ => Except.ok ()
  accIter := fun _ => Except.ok ([], none)
  nodeReaderOk := fun _ => true
  readNode := fun _ _ _ => []
  keccak := fun _ => 0
  decodeAccount := fun _ => none
  storageSrc := fun _ _ _ => StorageSrc.trieFail "unused"
  hasCode := fun _ => false

def verifyEnvHead : VerifyEnv where
  headBlock := some ⟨7, 0⟩
  snapshotNew := fun _ => Except.ok ()
  args := []
  unmarshalText := fun _ => none
  verify := fun _ => none
  checkDangling := none

theorem commands_root_resolution_witness :
    traverseState { stateEnvHead with headBlock := none } =
      Except.error StErr.noHeadBlock ∧
    traverseRawState { rawEnvHead with headBlock := none } =
      Except.error RawErr.noHeadBlock ∧
    verifyState { verifyEnvHead with headBlock := none } =
      Except.error VerifyErr.noHeadBlock ∧
    traverseState stateEnvHead = traverseStateAt stateEnvHead 7 ∧
    traverseRawState rawEnvHead = traverseRawStateAt rawEnvHead 7 ∧
    verifyState verifyEnvHead = verifyAt verifyEnvHead 7 ∧
    traverseState { stateEnvHead with args := ["zz"] } =
      Except.error (StErr.parseRoot "zz") ∧
    traverseRawState { rawEnvHead with args := ["zz"] } =
      Except.error (RawErr.parseRoot "zz") ∧
    verifyState { verifyEnvHead with args := ["zz"] } =
      Except.error (VerifyErr.parseRoot "zz") :=
  ⟨(commands_root_resolution { stateEnvHead with headBlock := none }
      { rawEnvHead with headBlock := none }
      { verifyEnvHead with headBlock := none } ⟨7, 0⟩ "zz").1 rfl,
   (commands_root_resolution { stateEnvHead with headBlock := none }
      { rawEnvHead with headBlock := none }
      { verifyEnvHead with headBlock := none } ⟨7, 0⟩ "zz").2.1 rfl,
   (commands_root_resolution { stateEnvHead with headBlock := none }
      { rawEnvHead with headBlock := none }
      { verifyEnvHead with headBlock := none } ⟨7, 0⟩ "zz").2.2.1 rfl,
   (commands_root_resolution stateEnvHead rawEnvHead verifyEnvHead
      ⟨7, 0⟩ "zz").2.2.2.1 rfl rfl,
   (commands_root_resolution stateEnvHead rawEnvHead verifyEnvHead
      ⟨7, 0⟩ "zz").2.2.2.2.1 rfl rfl,
   (commands_root_resolution stateEnvHead rawEnvHead verifyEnvHead
      ⟨7, 0⟩ "zz").2.2.2.2.2.1 rfl rfl rfl,
   (commands_root_resolution { stateEnvHead with args := ["zz"] }
      { rawEnvHead with args := ["zz"] }
      { verifyEnvHead with args := ["zz"] } ⟨7, 0⟩ "zz").2.2.2.2.2.2.1
      rfl rfl rfl,
   (commands_root_resolution { stateEnvHead with args := ["zz"] }
      { rawEnvHead with args := ["zz"] }
      { verifyEnvHead with args := ["zz"] } ⟨7, 0⟩ "zz").2.2.2.2.2.2.2.1
      rfl rfl rfl,
   (commands_root_resolution { stateEnvHead with args := ["zz"] }
      { rawEnvHead with args := ["zz"] }
      { verifyEnvHead with args := ["zz"] } ⟨7, 0⟩ "zz").2.2.2.2.2.2.2.2
      rfl rfl rfl rfl⟩

end Ftc
